import Mathlib

/-!
# Verification of the bizfly-backup chunk/restore engine

A shallow embedding, in Lean 4, of the core of the `bizfly-backup` agent:

* the chunk pipeline (`ChunkFileToBackup`, `backupChunk`) and the
  recovery-point differ (`UploadFile`) from `pkg/backupapi`;
* the restore engine (`RestoreItem`, `restoreFile`, `restoreDirectory`,
  `downloadFile`) from `pkg/backupapi`;
* the S3 storage-vault client (`VerifyObject`, `PutObject`, `GetObject`,
  `HeadObject`) from `pkg/storage_vault/s3`;
* the cron bookkeeping (`addToCronManager`, `removeFromCronManager`) and
  the legacy archive backup flow (`Server.backup`) from `pkg/server`.

File bytes are modelled as `List Nat`; Go's `time.Time` as a record of
calendar fields plus nanoseconds; the MD5 and SHA-256 digests as function
parameters (the digest algorithms are external to the repository); network
responses from the object store as oracle streams indexed by the attempt
number; the time-based exponential backoff budgets as `Nat` fuel counting
the remaining calls to `NextBackOff` before it answers `Stop`.
-/

set_option autoImplicit false

namespace Bizfly

/-! ## Characters, digit strings, `strings.EqualFold`, `strings.Contains` -/

/-- ASCII lowering of one character, as in `Char.toLower` / Go's simple fold
for the ASCII range (the only characters ever compared in this code are
digits and punctuation from formatted timestamps and object keys). -/
def charToLower (c : Char) : Char :=
  if c.toNat ≥ 65 ∧ c.toNat ≤ 90 then Char.ofNat (c.toNat + 32) else c

/-- The decimal digit character for `n % 10`. -/
def digitCh (n : Nat) : Char :=
  match n % 10 with
  | 0 => '0' | 1 => '1' | 2 => '2' | 3 => '3' | 4 => '4'
  | 5 => '5' | 6 => '6' | 7 => '7' | 8 => '8' | _ => '9'

/-- Decimal digits of `n`, most significant first, prepended to `acc`;
`fuel` bounds the recursion (any `fuel > n` is exact). -/
def natDigitsCore : Nat → Nat → List Char → List Char
  | 0, _, acc => acc
  | fuel + 1, n, acc =>
    if n < 10 then digitCh n :: acc else natDigitsCore fuel (n / 10) (digitCh n :: acc)

/-- Decimal digits of `n`, most significant first. -/
def natDigits (n : Nat) : List Char :=
  natDigitsCore (n + 1) n []

/-- `n` rendered in decimal, left padded with `'0'` to width `w`
(Go's zero-padding `time.Format` verbs). -/
def padC (w n : Nat) : List Char :=
  List.replicate (w - (natDigits n).length) '0' ++ natDigits n

/-- `timeToString` (pkg/backupapi): format a time as
`"2006-01-02 15:04:05.000000"`, i.e. to microsecond precision. -/
structure GoTime where
  year : Nat
  month : Nat
  day : Nat
  hour : Nat
  minute : Nat
  sec : Nat
  nsec : Nat
deriving DecidableEq, Repr

def timeChars (t : GoTime) : List Char :=
  padC 4 t.year ++ '-' :: padC 2 t.month ++ '-' :: padC 2 t.day ++
    ' ' :: padC 2 t.hour ++ ':' :: padC 2 t.minute ++ ':' :: padC 2 t.sec ++
    '.' :: padC 6 (t.nsec / 1000)

def timeToString (t : GoTime) : String :=
  ⟨timeChars t⟩

theorem data_timeToString (t : GoTime) : (timeToString t).data = timeChars t := rfl

/-- `strings.EqualFold` restricted to the ASCII fold, which is exact for
every string this code ever compares (formatted timestamps). -/
def eqFold (a b : String) : Bool :=
  decide (a.data.map charToLower = b.data.map charToLower)

/-- `pat` is a prefix of `s` (on character lists). -/
def startsWithL : List Char → List Char → Bool
  | [], _ => true
  | _ :: _, [] => false
  | p :: ps, c :: cs => p == c && startsWithL ps cs

/-- `strings.Contains s pat`: `pat` occurs as a substring of `s`. -/
def containsL (pat : List Char) : List Char → Bool
  | [] => pat.isEmpty
  | c :: rest => startsWithL pat (c :: rest) || containsL pat rest

def strContains (s pat : String) : Bool :=
  containsL pat.data s.data

theorem charToLower_digitCh (n : Nat) : charToLower (digitCh n) = digitCh n := by
  unfold digitCh
  split <;> decide

theorem charToLower_natDigitsCore (fuel n : Nat) (acc : List Char)
    (hacc : ∀ c ∈ acc, charToLower c = c) :
    ∀ c ∈ natDigitsCore fuel n acc, charToLower c = c := by
  induction fuel generalizing n acc with
  | zero => exact hacc
  | succ fuel ih =>
    intro c hc
    simp only [natDigitsCore] at hc
    split at hc
    · rcases List.mem_cons.mp hc with h | h
      · subst h; exact charToLower_digitCh n
      · exact hacc c h
    · refine ih (n / 10) (digitCh n :: acc) ?_ c hc
      intro d hd
      rcases List.mem_cons.mp hd with h | h
      · subst h; exact charToLower_digitCh n
      · exact hacc d h

theorem charToLower_padC (w n : Nat) : ∀ c ∈ padC w n, charToLower c = c := by
  intro c hc
  rcases List.mem_append.mp hc with h | h
  · rw [List.eq_of_mem_replicate h]; decide
  · exact charToLower_natDigitsCore (n + 1) n [] (by simp) c h

theorem charToLower_timeChars (t : GoTime) :
    ∀ c ∈ timeChars t, charToLower c = c := by
  simp only [timeChars, List.forall_mem_append, List.forall_mem_cons]
  and_intros <;> first | exact charToLower_padC _ _ | decide

theorem charToLower_timeToString (t : GoTime) :
    ∀ c ∈ (timeToString t).data, charToLower c = c := by
  intro c hc
  rw [data_timeToString] at hc
  exact charToLower_timeChars t c hc

theorem map_charToLower_timeToString (t : GoTime) :
    (timeToString t).data.map charToLower = (timeToString t).data := by
  rw [List.map_congr_left (g := id) (fun c hc => charToLower_timeToString t c hc),
    List.map_id]

/-- On formatted timestamps, `strings.EqualFold` coincides with equality. -/
theorem eqFold_timeToString (a b : GoTime) :
    eqFold (timeToString a) (timeToString b)
      = decide (timeToString a = timeToString b) := by
  simp only [eqFold, map_charToLower_timeToString]
  rcases eq_or_ne (timeToString a) (timeToString b) with h | h
  · simp [h]
  · have hd : (timeToString a).data ≠ (timeToString b).data :=
      fun hh => h (String.ext hh)
    simp [h, hd]

/-! ## Data model: chunk references, manifest records, nodes -/

/-- `cache.ChunkInfo`: one entry of a file Node's `content` list.
`etag` is filled in by `backupChunk` with the hex MD5 of the chunk bytes. -/
structure ChunkInfo where
  start : Nat
  length : Nat
  etag : String := ""
deriving DecidableEq, Repr

/-- `cache.Chunk` as built by `cache.NewChunk(bdID, rpID)` and sent on the
manifest pipe: `Chunks` maps an etag to `[multiplicity, length]`. -/
structure CacheChunk where
  backupDirectoryID : String
  recoveryPointID : String
  chunks : List (String × Nat × Nat)
deriving DecidableEq, Repr

/-- `cache.Node`: one filesystem entity of an Index. -/
structure Node where
  name : String := ""
  absolutePath : String := ""
  relativePath : String := ""
  basePath : String := ""
  type : String := "file"
  mode : Nat := 0
  uid : Nat := 0
  gid : Nat := 0
  accessTime : GoTime := ⟨1, 1, 1, 0, 0, 0, 0⟩
  modTime : GoTime := ⟨1, 1, 1, 0, 0, 0, 0⟩
  changeTime : GoTime := ⟨1, 1, 1, 0, 0, 0, 0⟩
  linkTarget : String := ""
  sha256Hash : List Nat := []
  content : List ChunkInfo := []
deriving DecidableEq, Repr

/-! ## Chunk pipeline: `backupChunk`, `ChunkFileToBackup` (pkg/backupapi)

The restic chunker is external to the repository; its observable behaviour on
one pass over the (re)opened file is the list of chunk sizes it emits before
either reaching EOF (`ok = true`) or failing with a non-EOF error
(`ok = false`).  Chunk boundaries are content-defined, so a pass is a
parameter of the embedding, constrained where a claim needs the chunker's
guarantee that the emitted chunks tile the file from offset 0. -/

structure Attempt where
  emitted : List Nat
  ok : Bool
deriving DecidableEq, Repr

/-- Sentinel errors of the backup/restore engine. -/
inductive BErr where
  | cancel
  | chunkFail
  | getFail
  | itemDone
deriving DecidableEq, Repr

/-- Effects of one chunker pass starting at byte offset `off`: the
`ChunkInfo`s appended to the Node's `content` (in chunker order, etag set to
the MD5 key by `backupChunk`), the object puts `(key, bytes)` issued by the
submitted `backupChunkJob`s, the manifest records each job sends on the pipe
(`Chunks[key] = [1, chunk.Length]`), and the chunk payloads in order (the
bytes written into the running SHA-256). -/
structure PassOut where
  content : List ChunkInfo
  puts : List (String × List Nat)
  records : List CacheChunk
  datas : List (List Nat)
deriving DecidableEq, Repr

def chunkPass (md5 : List Nat → String) (bdID rpID : String) (file : List Nat) :
    Nat → List Nat → PassOut
  | _, [] => ⟨[], [], [], []⟩
  | off, n :: ns =>
    let data := (file.drop off).take n
    let key := md5 data
    let rest := chunkPass md5 bdID rpID file (off + n) ns
    ⟨⟨off, n, key⟩ :: rest.content, (key, data) :: rest.puts,
      ⟨bdID, rpID, [(key, 1, n)]⟩ :: rest.records, data :: rest.datas⟩

/-- `IntervalTimeRetryChunk` bounds: `backoff.WithMaxRetries(…, 3)`. -/
def MaxTimesRetryChunk : Nat := 3

/-- Result of the `for { … }` reopen/re-chunk loop of `ChunkFileToBackup`:
the accumulated `content`, the SHA-256 written to the Node (computed over
the payloads of the final pass only — `fileHash = sha256.New()` is reset at
each reopen), all object puts and manifest records of every pass, and
whether the retry budget was exhausted (`errChunk`). -/
structure ChunkOutcome where
  content : List ChunkInfo
  sha256Hash : List Nat
  puts : List (String × List Nat)
  records : List CacheChunk
  chunkErr : Bool
deriving DecidableEq, Repr

/-- The reopen/re-chunk loop.  `fuel` is the number of retries the constant
backoff still allows; `i` indexes the chunker pass.  The `content`, `puts`
and `records` accumulators persist across passes: the source appends to
`itemInfo.Content` and never resets it when the file is reopened. -/
def chunkLoop (md5 : List Nat → String) (sha256 : List Nat → List Nat)
    (bdID rpID : String) (file : List Nat) (attempts : Nat → Attempt) :
    Nat → Nat → List ChunkInfo → List (String × List Nat) → List CacheChunk → ChunkOutcome
  | fuel, i, content, puts, records =>
    let a := attempts i
    let p := chunkPass md5 bdID rpID file 0 a.emitted
    if a.ok then
      ⟨content ++ p.content, sha256 p.datas.flatten, puts ++ p.puts, records ++ p.records, false⟩
    else
      match fuel with
      | 0 => ⟨content ++ p.content, [], puts ++ p.puts, records ++ p.records, true⟩
      | fuel' + 1 =>
        chunkLoop md5 sha256 bdID rpID file attempts fuel' (i + 1)
          (content ++ p.content) (puts ++ p.puts) (records ++ p.records)

theorem chunkLoop_eq (md5 : List Nat → String) (sha256 : List Nat → List Nat)
    (bdID rpID : String) (file : List Nat) (attempts : Nat → Attempt)
    (fuel i : Nat) (content : List ChunkInfo) (puts : List (String × List Nat))
    (records : List CacheChunk) :
    chunkLoop md5 sha256 bdID rpID file attempts fuel i content puts records
      = let a := attempts i
        let p := chunkPass md5 bdID rpID file 0 a.emitted
        if a.ok then
          ⟨content ++ p.content, sha256 p.datas.flatten, puts ++ p.puts,
            records ++ p.records, false⟩
        else
          match fuel with
          | 0 => ⟨content ++ p.content, [], puts ++ p.puts, records ++ p.records, true⟩
          | fuel' + 1 =>
            chunkLoop md5 sha256 bdID rpID file attempts fuel' (i + 1)
              (content ++ p.content) (puts ++ p.puts) (records ++ p.records) := by
  conv_lhs => unfold chunkLoop

/-- `ChunkFileToBackup`: returns the mutated `itemInfo` (content appended;
`Sha256Hash` set only on success), the pipeline effects, and the error. -/
def ChunkFileToBackup (md5 : List Nat → String) (sha256 : List Nat → List Nat)
    (bdID rpID : String) (file : List Nat) (attempts : Nat → Attempt)
    (ctxDone : Bool) (itemInfo : Node) : Node × ChunkOutcome × Option BErr :=
  if ctxDone then (itemInfo, ⟨[], [], [], [], false⟩, some .cancel)
  else
    let out := chunkLoop md5 sha256 bdID rpID file attempts MaxTimesRetryChunk 0 [] [] []
    if out.chunkErr then
      ({ itemInfo with content := itemInfo.content ++ out.content }, out, some .chunkFail)
    else
      ({ itemInfo with
          content := itemInfo.content ++ out.content
          sha256Hash := out.sha256Hash }, out, none)

/-! ## The differ: `UploadFile` (pkg/backupapi) -/

structure UploadOut where
  node : Node
  records : List CacheChunk
  puts : List (String × List Nat)
  chunked : Bool
  err : Option BErr
deriving DecidableEq, Repr

/-- The re-chunk branch of `UploadFile` (calls `ChunkFileToBackup`). -/
def uploadChunkPath (md5 : List Nat → String) (sha256 : List Nat → List Nat)
    (bdID rpID : String) (file : List Nat) (attempts : Nat → Attempt)
    (itemInfo : Node) : UploadOut :=
  let r := ChunkFileToBackup md5 sha256 bdID rpID file attempts false itemInfo
  ⟨r.1, r.2.1.records, r.2.1.puts, true, r.2.2⟩

/-- `UploadFile`: if there is no prior Node or the formatted mod times
differ (`strings.EqualFold` on `timeToString`), the file is chunked; else
the prior `content` and `sha256_hash` are copied and one manifest record
`Chunks[content.Etag] = [1, content.Length]` is re-emitted per prior
`ChunkRef`. -/
def UploadFile (md5 : List Nat → String) (sha256 : List Nat → List Nat)
    (bdID rpID : String) (file : List Nat) (attempts : Nat → Attempt)
    (ctxDone : Bool) (lastInfo : Option Node) (itemInfo : Node) : UploadOut :=
  if ctxDone then ⟨itemInfo, [], [], false, some .cancel⟩
  else
    match lastInfo with
    | none => uploadChunkPath md5 sha256 bdID rpID file attempts itemInfo
    | some last =>
      if eqFold (timeToString last.modTime) (timeToString itemInfo.modTime) then
        ⟨{ itemInfo with
            content := last.content
            sha256Hash := last.sha256Hash },
          last.content.map (fun c => ⟨bdID, rpID, [(c.etag, 1, c.length)]⟩), [], false, none⟩
      else uploadChunkPath md5 sha256 bdID rpID file attempts itemInfo

/-! ## Restore engine: `downloadFile`, `restoreFile`, `restoreDirectory`,
`restoreSymlink`, `RestoreItem` (pkg/backupapi)

The filesystem is abstracted: `os.Stat` of the target path is an
`Option DiskStat` (`none` = `os.IsNotExist`), and the syscalls a restore
performs are recorded as a trace of `RAction`s.  The object store seen
through `GetObject` is a partial map from etags to byte strings. -/

/-- Metadata applied to a restored file. -/
structure FileMeta where
  mode : Nat
  uid : Nat
  gid : Nat
  atime : GoTime
  mtime : GoTime
deriving DecidableEq, Repr

/-- What `os.Stat` + `support.ItemLocal` report for an existing target,
plus the bytes/metadata it currently carries. -/
structure DiskStat where
  ctime : GoTime
  mtime : GoTime
  bytes : List Nat := []
  meta : FileMeta := ⟨0, 0, 0, ⟨1, 1, 1, 0, 0, 0, 0⟩, ⟨1, 1, 1, 0, 0, 0, 0⟩⟩
deriving DecidableEq, Repr

/-- Syscalls performed by the restore engine, in order. -/
inductive RAction where
  | createA
  | removeA
  | mkdirA
  | symlinkA (target : String)
  | chmodA (mode : Nat)
  | chownA (uid gid : Nat)
  | chtimesA (atime mtime : GoTime)
  | getA (key : String)
  | writeA (off : Nat) (data : List Nat)
deriving DecidableEq, Repr

/-- `file.WriteAt(data, off)`: positional write into a byte buffer
(zero-filling any gap, as a sparse file reads back as zeros). -/
def writeAt (buf : List Nat) (off : Nat) (data : List Nat) : List Nat :=
  buf.take off ++ List.replicate (off - buf.length) 0 ++ data ++ buf.drop (off + data.length)

/-- The per-chunk loop of `downloadFile`: for each `ChunkRef` in `content`
order, `GetObject(etag)` and write the payload at offset `start`;
the cancellation signal is checked before each chunk. -/
def downloadLoop (ctxDone : Bool) (store : String → Option (List Nat)) :
    List ChunkInfo → List Nat → List RAction × Except BErr (List Nat)
  | [], buf => ([], .ok buf)
  | c :: cs, buf =>
    if ctxDone then ([], .error .cancel)
    else
      match store c.etag with
      | none => ([.getA c.etag], .error .getFail)
      | some data =>
        let r := downloadLoop ctxDone store cs (writeAt buf c.start data)
        (.getA c.etag :: .writeA c.start data :: r.1, r.2)

/-- `downloadFile`: run the chunk loop over an open file whose current
contents are `buf`, then `Chmod`/`SetChownItem`/`Chtimes` from the Node. -/
def downloadFile (ctxDone : Bool) (store : String → Option (List Nat))
    (item : Node) (buf : List Nat) :
    List RAction × Except BErr (List Nat × FileMeta) :=
  let r := downloadLoop ctxDone store item.content buf
  match r.2 with
  | .error e => (r.1, .error e)
  | .ok out =>
    (r.1 ++ [.chmodA item.mode, .chownA item.uid item.gid,
        .chtimesA item.accessTime item.modTime],
      .ok (out, ⟨item.mode, item.uid, item.gid, item.accessTime, item.modTime⟩))

/-- `createFile(path, mode, uid, gid)`: `os.Create`, `os.Chmod`,
`support.SetChownItem`. -/
def createFile (mode uid gid : Nat) : List RAction :=
  [.createA, .chmodA mode, .chownA uid gid]

/-- `restoreFile`: skip / delete-and-redownload / metadata-refresh / create,
decided by the formatted ctime and mtime comparisons of the source. -/
def restoreFile (ctxDone : Bool) (store : String → Option (List Nat))
    (disk : Option DiskStat) (item : Node) :
    List RAction × Except BErr (List Nat × FileMeta) :=
  if ctxDone then ([], .error .cancel)
  else
    match disk with
    | none =>
      let dl := downloadFile ctxDone store item []
      (createFile item.mode item.uid item.gid ++ dl.1, dl.2)
    | some d =>
      if eqFold (timeToString d.ctime) (timeToString item.changeTime) then
        ([], .ok (d.bytes, d.meta))
      else
        if eqFold (timeToString d.mtime) (timeToString item.modTime) then
          ([.chmodA item.mode, .chownA item.uid item.gid,
              .chtimesA item.accessTime item.modTime],
            .ok (d.bytes, ⟨item.mode, item.uid, item.gid, item.accessTime, item.modTime⟩))
        else
          let dl := downloadFile ctxDone store item []
          (.removeA :: createFile item.mode item.uid item.gid ++ dl.1, dl.2)

/-- `restoreDirectory`: note the `ctx.Done` arm returns `nil`. -/
def restoreDirectory (ctxDone : Bool) (disk : Option DiskStat) (item : Node) :
    List RAction × Option BErr :=
  if ctxDone then ([], none)
  else
    match disk with
    | none =>
      ([.mkdirA, .chmodA item.mode, .chownA item.uid item.gid,
          .chtimesA item.accessTime item.modTime], none)
    | some d =>
      if eqFold (timeToString d.ctime) (timeToString item.changeTime) then ([], none)
      else ([.chmodA item.mode, .chownA item.uid item.gid], none)

/-- `restoreSymlink`: its `ctx.Done` arm returns the distinct error
`"context restore item done"`, modelled as `BErr.itemDone`. -/
def restoreSymlink (ctxDone : Bool) (disk : Option DiskStat) (item : Node) :
    List RAction × Option BErr :=
  if ctxDone then ([], some .itemDone)
  else
    match disk with
    | none =>
      ([.symlinkA item.linkTarget, .chmodA item.mode, .chownA item.uid item.gid], none)
    | some d =>
      if eqFold (timeToString d.ctime) (timeToString item.changeTime) then ([], none)
      else ([.chmodA item.mode, .chownA item.uid item.gid], none)

/-- `filepath.Join` for the single case used here. -/
def joinPath (dir rel : String) : String :=
  dir ++ "/" ++ rel

/-- The target path computed by `RestoreItem`. -/
def restoreItemPath (destDir : String) (item : Node) : String :=
  if destDir == item.basePath then item.absolutePath else joinPath destDir item.relativePath

/-- `RestoreItem`: dispatch on the Node type.  The `disk` oracle stands for
the filesystem state at `restoreItemPath destDir item`. -/
def RestoreItem (ctxDone : Bool) (store : String → Option (List Nat))
    (disk : Option DiskStat) (destDir : String) (item : Node) :
    List RAction × Option BErr :=
  if ctxDone then ([], some .cancel)
  else
    match item.type with
    | "symlink" => restoreSymlink ctxDone disk item
    | "dir" => restoreDirectory ctxDone disk item
    | "file" =>
      let r := restoreFile ctxDone store disk item
      (r.1, match r.2 with | .error e => some e | .ok _ => none)
    | _ => ([], none)

/-! ## A whole-tree backup followed by a whole-tree restore (claim C1) -/

/-- First-match lookup in the sequence of object puts.  All puts of one
backup that share a key carry the same bytes whenever the digest is
collision-free on the stored payloads, so first-match and last-match
agree. -/
def storeGet (st : List (String × List Nat)) (k : String) : Option (List Nat) :=
  (st.find? (fun p => p.1 == k)).map (fun p => p.2)

/-- The chunk payloads of one chunker pass over `file` starting at `off`. -/
def segsOf (file : List Nat) : Nat → List Nat → List (List Nat)
  | _, [] => []
  | off, n :: ns => (file.drop off).take n :: segsOf file (off + n) ns

/-- One source file to back up: its bytes, the chunk sizes the
content-defined chunker cuts it into, and its stat metadata. -/
structure BackupInput where
  data : List Nat
  partition : List Nat
  mode : Nat := 0
  uid : Nat := 0
  gid : Nat := 0
  atime : GoTime := ⟨1, 1, 1, 0, 0, 0, 0⟩
  mtime : GoTime := ⟨1, 1, 1, 0, 0, 0, 0⟩
  ctime : GoTime := ⟨1, 1, 1, 0, 0, 0, 0⟩
deriving DecidableEq, Repr

/-- A chunker that succeeds in one pass, emitting `partition`. -/
def oneAttempt (partition : List Nat) : Nat → Attempt :=
  fun _ => ⟨partition, true⟩

/-- Back up one file: the walker's fresh Node (metadata filled, `content`
empty) run through `ChunkFileToBackup`. -/
def backupOne (md5 : List Nat → String) (sha256 : List Nat → List Nat)
    (inp : BackupInput) : Node × List (String × List Nat) :=
  let item : Node :=
    { mode := inp.mode, uid := inp.uid, gid := inp.gid,
      accessTime := inp.atime, modTime := inp.mtime, changeTime := inp.ctime }
  let r := ChunkFileToBackup md5 sha256 "bd" "rp" inp.data (oneAttempt inp.partition) false item
  (r.1, r.2.1.puts)

/-- Back up a tree: the resulting Index nodes and the store contents. -/
def backupTree (md5 : List Nat → String) (sha256 : List Nat → List Nat)
    (inps : List BackupInput) : List Node × List (String × List Nat) :=
  ((inps.map (backupOne md5 sha256)).map Prod.fst,
    ((inps.map (backupOne md5 sha256)).map Prod.snd).flatten)

/-- Every chunk payload stored while backing up the tree. -/
def allSegs (inps : List BackupInput) : List (List Nat) :=
  (inps.map (fun inp => segsOf inp.data 0 inp.partition)).flatten

/-! ## The S3 storage-vault client (pkg/storage_vault/s3)

The store is an oracle: `resps i` is what the raw AWS call answers on the
`i`-th attempt of the given kind.  Backoff budgets (`MaxElapsedTime` of
3 minutes) are fuel counting the remaining `NextBackOff` calls before
`backoff.Stop`.  Control-plane credential fetch and refresh succeed or fail
according to `fetchOk` / `refOk` per refresh attempt.  Every raw call,
randomized sleep, credential fetch and refresh is recorded in a trace. -/

inductive AwsCode where
  | notFound
  | noSuchKey
  | accessDenied
  | forbidden
  | other (code : String)
deriving DecidableEq, Repr

/-- `aerr.Code() == "AccessDenied" || aerr.Code() == "Forbidden"`. -/
def AwsCode.isAccess : AwsCode → Bool
  | .accessDenied => true
  | .forbidden => true
  | _ => false

inductive HeadResp where
  | found (etag : String)
  | failure (code : AwsCode)
deriving DecidableEq, Repr

inductive GetResp where
  | payload (data : List Nat)
  | failure (code : AwsCode)
deriving DecidableEq, Repr

inductive SAction where
  | headRaw
  | getRaw
  | putRaw (data : List Nat)
  | sleepRand
  | getCred
  | refreshCred
deriving DecidableEq, Repr

/-- Result of `HeadObject`: `(bool, string, error)` plus the oracle index
after the call and the action trace. -/
structure HeadOut where
  isExist : Bool
  etag : String
  err : Option AwsCode
  nextIdx : Nat
  trace : List SAction
deriving DecidableEq, Repr

/-- One iteration either settles the call (`stop`) or goes to the backoff
(`retry`), carrying the result to return if the backoff answers `Stop`. -/
inductive HeadStep where
  | stop (out : HeadOut)
  | retry (fail : HeadOut) (nextIdx : Nat) (once : Bool) (tr : List SAction)
deriving DecidableEq, Repr

/-- One iteration of the `HeadObject` loop.  `once` is the
have-we-already-retried flag for AccessDenied/Forbidden; the randomized
0–3 s sleep happens before the backoff is consulted. -/
def headIter (resps : Nat → HeadResp) (k : Nat) (once : Bool) : HeadStep :=
  match resps k with
  | .found etag => .stop ⟨true, etag, none, k + 1, [.headRaw]⟩
  | .failure code =>
    if code = .notFound then .stop ⟨false, "", some code, k + 1, [.headRaw]⟩
    else if code.isAccess && once then .stop ⟨false, "", some code, k + 1, [.headRaw]⟩
    else
      let tr := .headRaw :: if code.isAccess then [SAction.sleepRand] else []
      .retry ⟨false, "", some code, k + 1, tr⟩ (k + 1) (once || code.isAccess) tr

/-- The retry loop of `HeadObject`. -/
def headObjectLoop (resps : Nat → HeadResp) : Nat → Nat → Bool → HeadOut
  | fuel, k, once =>
    match headIter resps k once with
    | .stop out => out
    | .retry fail k' once' tr =>
      match fuel with
      | 0 => fail
      | fuel' + 1 =>
        let r := headObjectLoop resps fuel' k' once'
        ⟨r.isExist, r.etag, r.err, r.nextIdx, tr ++ r.trace⟩

theorem headObjectLoop_eq (resps : Nat → HeadResp) (fuel k : Nat) (once : Bool) :
    headObjectLoop resps fuel k once
      = match headIter resps k once with
        | .stop out => out
        | .retry fail k' once' tr =>
          match fuel with
          | 0 => fail
          | fuel' + 1 =>
            let r := headObjectLoop resps fuel' k' once'
            ⟨r.isExist, r.etag, r.err, r.nextIdx, tr ++ r.trace⟩ := by
  conv_lhs => unfold headObjectLoop

def HeadObject (resps : Nat → HeadResp) (fuel k : Nat) : HeadOut :=
  headObjectLoop resps fuel k false

/-- Result of `VerifyObject`: `(isExist, integrity, etag, error)` plus the
next head-oracle index, next refresh index, and the trace. -/
structure VerifyOut where
  isExist : Bool
  integrity : Bool
  etag : String
  err : Option AwsCode
  nextIdx : Nat
  nextRef : Nat
  trace : List SAction
deriving DecidableEq, Repr

/-- One `VerifyObject` iteration: settle, or go to the backoff carrying
the result to return if the backoff answers `Stop`. -/
inductive VerifyStep where
  | stop (out : VerifyOut)
  | retry (fail : VerifyOut) (nextIdx nextRef : Nat) (tr : List SAction)
deriving DecidableEq, Repr

/-- One iteration of the `VerifyObject` loop: one full `HeadObject` call
(with its own fresh backoff budget `hfuel`); on success, `integrity` is
`strings.Contains(etag, key)` when the object exists; NotFound is promoted
to a nil error; on AccessDenied/Forbidden with credential type `DEFAULT`
the control plane is asked for fresh credentials
(`GetCredentialStorageVault`) and `RefreshCredential` is called before the
retry, a failure of either breaking out with the permission error. -/
def verifyIter (resps : Nat → HeadResp) (fetchOk refOk : Nat → Bool)
    (credType key : String) (hfuel : Nat) (k r : Nat) : VerifyStep :=
  let h := HeadObject resps hfuel k
  match h.err with
  | none =>
    .stop ⟨h.isExist, h.isExist && strContains h.etag key, h.etag, none, h.nextIdx, r, h.trace⟩
  | some code =>
    if code = .notFound then .stop ⟨h.isExist, false, h.etag, none, h.nextIdx, r, h.trace⟩
    else if code.isAccess && credType == "DEFAULT" then
      if !fetchOk r then
        .stop ⟨h.isExist, false, h.etag, some code, h.nextIdx, r + 1, h.trace ++ [.getCred]⟩
      else if !refOk r then
        .stop ⟨h.isExist, false, h.etag, some code, h.nextIdx, r + 1,
          h.trace ++ [.getCred, .refreshCred]⟩
      else
        .retry ⟨h.isExist, false, h.etag, some code, h.nextIdx, r + 1,
            h.trace ++ [.getCred, .refreshCred]⟩
          h.nextIdx (r + 1) (h.trace ++ [.getCred, .refreshCred])
    else
      .retry ⟨h.isExist, false, h.etag, some code, h.nextIdx, r, h.trace⟩ h.nextIdx r h.trace

/-- The retry loop of `VerifyObject`. -/
def verifyLoop (resps : Nat → HeadResp) (fetchOk refOk : Nat → Bool)
    (credType key : String) (hfuel : Nat) : Nat → Nat → Nat → VerifyOut
  | fuel, k, r =>
    match verifyIter resps fetchOk refOk credType key hfuel k r with
    | .stop out => out
    | .retry fail k' r' tr =>
      match fuel with
      | 0 => fail
      | fuel' + 1 =>
        let v := verifyLoop resps fetchOk refOk credType key hfuel fuel' k' r'
        ⟨v.isExist, v.integrity, v.etag, v.err, v.nextIdx, v.nextRef, tr ++ v.trace⟩

theorem verifyLoop_eq (resps : Nat → HeadResp) (fetchOk refOk : Nat → Bool)
    (credType key : String) (hfuel fuel k r : Nat) :
    verifyLoop resps fetchOk refOk credType key hfuel fuel k r
      = match verifyIter resps fetchOk refOk credType key hfuel k r with
        | .stop out => out
        | .retry fail k' r' tr =>
          match fuel with
          | 0 => fail
          | fuel' + 1 =>
            let v := verifyLoop resps fetchOk refOk credType key hfuel fuel' k' r'
            ⟨v.isExist, v.integrity, v.etag, v.err, v.nextIdx, v.nextRef, tr ++ v.trace⟩ := by
  conv_lhs => unfold verifyLoop

def VerifyObject (resps : Nat → HeadResp) (fetchOk refOk : Nat → Bool)
    (credType key : String) (hfuel vfuel k r : Nat) : VerifyOut :=
  verifyLoop resps fetchOk refOk credType key hfuel vfuel k r

/-- Result of `GetObject`. -/
structure GetOut where
  data : Option (List Nat)
  err : Option AwsCode
  nextIdx : Nat
  trace : List SAction
deriving DecidableEq, Repr

/-- One `GetObject` iteration: settle, or go to the backoff. -/
inductive GetStep where
  | stop (out : GetOut)
  | retry (fail : GetOut) (nextIdx : Nat) (once : Bool) (tr : List SAction)
deriving DecidableEq, Repr

/-- One iteration of the `GetObject` loop: `NoSuchKey` and any
non-permission AWS error surface immediately; AccessDenied/Forbidden is
retried at most once after a randomized 0–3 s sleep. -/
def getIter (resps : Nat → GetResp) (k : Nat) (once : Bool) : GetStep :=
  match resps k with
  | .payload d => .stop ⟨some d, none, k + 1, [.getRaw]⟩
  | .failure code =>
    if code = .noSuchKey then .stop ⟨none, some code, k + 1, [.getRaw]⟩
    else if code.isAccess then
      if once then .stop ⟨none, some code, k + 1, [.getRaw]⟩
      else .retry ⟨none, some code, k + 1, [.getRaw, .sleepRand]⟩ (k + 1) true
        [.getRaw, .sleepRand]
    else .stop ⟨none, some code, k + 1, [.getRaw]⟩

/-- The retry loop of `GetObject`. -/
def getObjectLoop (resps : Nat → GetResp) : Nat → Nat → Bool → GetOut
  | fuel, k, once =>
    match getIter resps k once with
    | .stop out => out
    | .retry fail k' once' tr =>
      match fuel with
      | 0 => fail
      | fuel' + 1 =>
        let g := getObjectLoop resps fuel' k' once'
        ⟨g.data, g.err, g.nextIdx, tr ++ g.trace⟩

theorem getObjectLoop_eq (resps : Nat → GetResp) (fuel k : Nat) (once : Bool) :
    getObjectLoop resps fuel k once
      = match getIter resps k once with
        | .stop out => out
        | .retry fail k' once' tr =>
          match fuel with
          | 0 => fail
          | fuel' + 1 =>
            let g := getObjectLoop resps fuel' k' once'
            ⟨g.data, g.err, g.nextIdx, tr ++ g.trace⟩ := by
  conv_lhs => unfold getObjectLoop

def GetObject (resps : Nat → GetResp) (fuel k : Nat) : GetOut :=
  getObjectLoop resps fuel k false

/-- The well-known manifest blobs whose put skips the verify-after-put. -/
def isManifestKey (key : String) : Bool :=
  strContains key "chunk.json" || strContains key "index.json" || strContains key "file.csv"

/-- Result of `PutObject`. -/
structure PutOut where
  err : Option AwsCode
  nextHead : Nat
  nextPut : Nat
  nextRef : Nat
  trace : List SAction
deriving DecidableEq, Repr

/-- State carried to the next `PutObject` iteration after a retryable
error. -/
structure PutRetry where
  code : AwsCode
  once : Bool
  nextHead : Nat
  nextPut : Nat
  nextRef : Nat
  trace : List SAction
deriving DecidableEq, Repr

/-- The error classification at the bottom of the `PutObject` loop:
AccessDenied/Forbidden returns the error if already retried once, else
sleeps 0–3 s and retries; everything else goes to the backoff. -/
def putClassify (code : AwsCode) (once : Bool) (hk pk r : Nat) (trace : List SAction) :
    Sum PutOut PutRetry :=
  if code.isAccess then
    if once then .inl ⟨some code, hk, pk, r, trace⟩
    else .inr ⟨code, true, hk, pk, r, trace ++ [.sleepRand]⟩
  else .inr ⟨code, once, hk, pk, r, trace⟩

/-- One iteration of the `PutObject` loop: verify first; if present but
corrupt, re-put; if absent, put, and (for non-manifest keys) verify the
fresh object and re-put once more if it is present but corrupt. -/
def putIter (headResps : Nat → HeadResp) (putResps : Nat → Option AwsCode)
    (fetchOk refOk : Nat → Bool) (credType key : String) (data : List Nat)
    (hfuel vfuel : Nat) (hk pk r : Nat) (once : Bool) (errPrev : Option AwsCode) :
    Sum PutOut PutRetry :=
  let v1 := VerifyObject headResps fetchOk refOk credType key hfuel vfuel hk r
  if v1.isExist then
    if !v1.integrity then
      match putResps pk with
      | none => .inl ⟨none, v1.nextIdx, pk + 1, v1.nextRef, v1.trace ++ [.putRaw data]⟩
      | some code =>
        putClassify code once v1.nextIdx (pk + 1) v1.nextRef (v1.trace ++ [.putRaw data])
    else .inl ⟨errPrev, v1.nextIdx, pk, v1.nextRef, v1.trace⟩
  else
    let e1 := putResps pk
    let tr1 := v1.trace ++ [.putRaw data]
    if isManifestKey key then
      match e1 with
      | none => .inl ⟨none, v1.nextIdx, pk + 1, v1.nextRef, tr1⟩
      | some code => putClassify code once v1.nextIdx (pk + 1) v1.nextRef tr1
    else
      let v2 := VerifyObject headResps fetchOk refOk credType key hfuel vfuel v1.nextIdx v1.nextRef
      if v2.isExist then
        if !v2.integrity then
          match putResps (pk + 1) with
          | none => .inl ⟨none, v2.nextIdx, pk + 2, v2.nextRef, tr1 ++ v2.trace ++ [.putRaw data]⟩
          | some code2 =>
            putClassify code2 once v2.nextIdx (pk + 2) v2.nextRef
              (tr1 ++ v2.trace ++ [.putRaw data])
        else .inl ⟨e1, v2.nextIdx, pk + 1, v2.nextRef, tr1 ++ v2.trace⟩
      else
        match e1 with
        | none => .inl ⟨none, v2.nextIdx, pk + 1, v2.nextRef, tr1 ++ v2.trace⟩
        | some code => putClassify code once v2.nextIdx (pk + 1) v2.nextRef (tr1 ++ v2.trace)

/-- The `PutObject` retry loop. -/
def putLoop (headResps : Nat → HeadResp) (putResps : Nat → Option AwsCode)
    (fetchOk refOk : Nat → Bool) (credType key : String) (data : List Nat)
    (hfuel vfuel : Nat) : Nat → Nat → Nat → Nat → Bool → Option AwsCode → PutOut
  | fuel, hk, pk, r, once, errPrev =>
    match putIter headResps putResps fetchOk refOk credType key data hfuel vfuel
        hk pk r once errPrev with
    | .inl out => out
    | .inr ret =>
      match fuel with
      | 0 => ⟨some ret.code, ret.nextHead, ret.nextPut, ret.nextRef, ret.trace⟩
      | fuel' + 1 =>
        let o := putLoop headResps putResps fetchOk refOk credType key data hfuel vfuel
          fuel' ret.nextHead ret.nextPut ret.nextRef ret.once (some ret.code)
        ⟨o.err, o.nextHead, o.nextPut, o.nextRef, ret.trace ++ o.trace⟩

theorem putLoop_eq (headResps : Nat → HeadResp) (putResps : Nat → Option AwsCode)
    (fetchOk refOk : Nat → Bool) (credType key : String) (data : List Nat)
    (hfuel vfuel fuel hk pk r : Nat) (once : Bool) (errPrev : Option AwsCode) :
    putLoop headResps putResps fetchOk refOk credType key data hfuel vfuel
        fuel hk pk r once errPrev
      = match putIter headResps putResps fetchOk refOk credType key data hfuel vfuel
            hk pk r once errPrev with
        | .inl out => out
        | .inr ret =>
          match fuel with
          | 0 => ⟨some ret.code, ret.nextHead, ret.nextPut, ret.nextRef, ret.trace⟩
          | fuel' + 1 =>
            let o := putLoop headResps putResps fetchOk refOk credType key data hfuel vfuel
              fuel' ret.nextHead ret.nextPut ret.nextRef ret.once (some ret.code)
            ⟨o.err, o.nextHead, o.nextPut, o.nextRef, ret.trace ++ o.trace⟩ := by
  conv_lhs => unfold putLoop

def PutObject (headResps : Nat → HeadResp) (putResps : Nat → Option AwsCode)
    (fetchOk refOk : Nat → Bool) (credType key : String) (data : List Nat)
    (hfuel vfuel pfuel hk pk : Nat) : PutOut :=
  putLoop headResps putResps fetchOk refOk credType key data hfuel vfuel pfuel hk pk 0 false none

/-! ## Server: cron bookkeeping and the legacy archive backup (pkg/server) -/

structure BackupDirectoryConfigPolicy where
  id : String
  name : String := ""
  schedulePattern : String
  activated : Bool := true
deriving DecidableEq, Repr

structure BackupDirectoryConfig where
  id : String
  name : String := ""
  path : String := ""
  policies : List BackupDirectoryConfigPolicy
deriving DecidableEq, Repr

/-- The `cronPolicyIDToCronID` map, as an association list (`cron.EntryID`
is a `Nat` issued by an increasing counter, which is how
`cron.Cron.AddFunc` behaves). -/
def CronMap : Type := List (String × Nat)

def mapInsert (m : List (String × Nat)) (k : String) (v : Nat) : List (String × Nat) :=
  if m.any (fun p => p.1 == k) then m.map (fun p => if p.1 == k then (k, v) else p)
  else m ++ [(k, v)]

/-- `addToCronManager`: register every activated policy whose schedule
parses (`validPattern`), keyed by `policy.ID`. -/
def addToCronManager (validPattern : String → Bool) (bdc : List BackupDirectoryConfig)
    (m : List (String × Nat)) (nextID : Nat) : List (String × Nat) × Nat :=
  bdc.foldl
    (fun acc bd =>
      bd.policies.foldl
        (fun acc2 policy =>
          if !policy.activated then acc2
          else if !validPattern policy.schedulePattern then acc2
          else (mapInsert acc2.1 policy.id acc2.2, acc2.2 + 1))
        acc)
    (m, nextID)

/-- `removeFromCronManager`: delete every entry keyed by
`policy.ID + bd.ID`. -/
def removeFromCronManager (bdc : List BackupDirectoryConfig)
    (m : List (String × Nat)) : List (String × Nat) :=
  bdc.foldl
    (fun acc bd =>
      bd.policies.foldl
        (fun acc2 policy =>
          let mappingID := policy.id ++ bd.id
          if acc2.any (fun p => p.1 == mappingID) then
            acc2.filter (fun p => !(p.1 == mappingID))
          else acc2)
        acc)
    m

/-- The outcome of each fallible step of `Server.backup`
(`none` = success); broker publishes only log a warning on failure and are
not modelled. -/
structure BackupSteps where
  createRP : Option String := none
  getBD : Option String := none
  chdir : Option String := none
  tempFile : Option String := none
  compress : Option String := none
  closeTmp : Option String := none
  reopen : Option String := none
  upload : Option String := none
deriving DecidableEq, Repr

/-- `Server.backup`: runs the steps in order and returns the first error —
except that a failing `UploadFile` returns `nil`
(`if err := s.backupClient.UploadFile(…); err != nil { return nil }`). -/
def serverBackup (st : BackupSteps) : Option String :=
  match st.createRP with
  | some e => some e
  | none =>
  match st.getBD with
  | some e => some e
  | none =>
  match st.chdir with
  | some e => some e
  | none =>
  match st.tempFile with
  | some e => some e
  | none =>
  match st.compress with
  | some e => some e
  | none =>
  match st.closeTmp with
  | some e => some e
  | none =>
  match st.reopen with
  | some e => some e
  | none =>
  match st.upload with
  | some _ => none
  | none => none

/-! ## Concrete instantiations used in evaluations and witnesses -/

/-- A concrete stand-in digest, collision-free on the small payloads used
in concrete runs (checked pairwise there). -/
def md5c (d : List Nat) : String :=
  ⟨d.map (fun n => Char.ofNat (65 + n % 26))⟩

/-- A concrete stand-in for the SHA-256 parameter. -/
def sha256c (d : List Nat) : List Nat :=
  d

/-- A chunker behaviour that fails mid-file on the first pass (one 2-byte
chunk, then a non-EOF error) and succeeds on the second pass. -/
def attemptsRetry : Nat → Attempt
  | 0 => ⟨[2], false⟩
  | _ => ⟨[2, 2], true⟩

/-! ## Claims -/

/-- C10: if the cancellation context is already done, `restoreDirectory`
returns nil (success) while `restoreFile` and `RestoreItem` return the
distinguished cancellation error `ErrorGotCancelRequest`. -/
theorem C10_cancel_dispatch :
    ∀ (store : String → Option (List Nat)) (disk : Option DiskStat) (destDir : String)
      (item : Node),
      (restoreDirectory true disk item).2 = none ∧
      (restoreFile true store disk item).2 = Except.error BErr.cancel ∧
      (RestoreItem true store disk destDir item).2 = some BErr.cancel := by
  intro store disk destDir item
  exact ⟨rfl, rfl, rfl⟩

/-- C8: `Server.backup` evaluated at a run where every step up to the
archive upload succeeds and the upload itself fails: the function returns
`none` (a nil error), i.e. the upload failure is swallowed, contradicting
the claim that it is surfaced. -/
theorem C8_backup_swallows_upload_error :
    serverBackup { upload := some "network failure during upload" } = none := by
  rfl

/-- C9: `addToCronManager` registers under key `policy.ID` while
`removeFromCronManager` deletes under key `policy.ID + bd.ID`, so removing
the very configs just added leaves the entry behind: the cron-entry map is
`[("policy_1", 0)]`, not empty, contradicting the claim (and the repo's
`TestServerCron`, which asserts the map is empty). -/
theorem C9_cron_key_mismatch :
    removeFromCronManager [⟨"dir1", "dir1", "/dev/null", [⟨"policy_1", "policy_1", "* * * * *", true⟩]⟩]
        (addToCronManager (fun _ => true)
          [⟨"dir1", "dir1", "/dev/null", [⟨"policy_1", "policy_1", "* * * * *", true⟩]⟩] [] 0).1
        = [("policy_1", 0)] ∧
      removeFromCronManager [⟨"dir1", "dir1", "/dev/null", [⟨"policy_1", "policy_1", "* * * * *", true⟩]⟩]
        (addToCronManager (fun _ => true)
          [⟨"dir1", "dir1", "/dev/null", [⟨"policy_1", "policy_1", "* * * * *", true⟩]⟩] [] 0).1
        ≠ [] := by
  exact ⟨by decide, by decide⟩

/-- C6: a completed backup of the 4-byte file `[1,2,3,4]` in which the
chunker failed after emitting one 2-byte chunk and the file was re-chunked
successfully on the second pass: `ChunkFileToBackup` returns success, but
the Node's `content` has starts `[0, 0, 2]` — the offset-0 chunk appears
twice, so the list is not non-overlapping and its lengths sum to 6 ≠ 4:
the file is not covered exactly once.  (`itemInfo.Content` is appended to
on every pass and never reset when the file is reopened, unlike
`fileHash`, which is reset.) -/
theorem C6_retry_duplicates_content :
    (ChunkFileToBackup md5c sha256c "bd" "rp" [1, 2, 3, 4] attemptsRetry false {}).2.2
        = none ∧
      ((ChunkFileToBackup md5c sha256c "bd" "rp" [1, 2, 3, 4] attemptsRetry
          false {}).1.content.map (fun c => c.start)) = [0, 0, 2] ∧
      (((ChunkFileToBackup md5c sha256c "bd" "rp" [1, 2, 3, 4] attemptsRetry
          false {}).1.content.map (fun c => c.length)).sum) = 6 ∧
      List.length [1, 2, 3, 4] = 4 := by
  refine ⟨by decide, by decide, by decide, rfl⟩

/-! ## Structural lemmas about the head/verify loops -/

theorem headIter_stop_exist (resps : Nat → HeadResp) (k : Nat) (once : Bool)
    (out : HeadOut) (h : headIter resps k once = HeadStep.stop out) :
    out.isExist = true → out.err = none := by
  rcases hr : resps k with etag | code <;> simp only [headIter, hr] at h
  · cases h
    intro
    rfl
  · split at h
    · cases h
      intro h'
      cases h'
    · split at h
      · cases h
        intro h'
        cases h'
      · cases h

theorem headIter_retry_exist (resps : Nat → HeadResp) (k : Nat) (once : Bool)
    (fail : HeadOut) (k' : Nat) (once' : Bool) (tr : List SAction)
    (h : headIter resps k once = HeadStep.retry fail k' once' tr) :
    fail.isExist = false := by
  rcases hr : resps k with etag | code <;> simp only [headIter, hr] at h
  · cases h
  · split at h
    · cases h
    · split at h
      · cases h
      · cases h
        rfl

/-- `HeadObject` answers `isExist = true` only together with a nil error. -/
theorem headObjectLoop_exist_err (resps : Nat → HeadResp) :
    ∀ (fuel k : Nat) (once : Bool),
      (headObjectLoop resps fuel k once).isExist = true →
      (headObjectLoop resps fuel k once).err = none := by
  intro fuel
  induction fuel with
  | zero =>
    intro k once h
    rw [headObjectLoop_eq resps 0 k once] at h ⊢
    revert h
    cases hi : headIter resps k once with
    | stop out => exact headIter_stop_exist resps k once out hi
    | retry fail k' once' tr =>
      intro h
      exact absurd h (by simp [headIter_retry_exist resps k once fail k' once' tr hi])
  | succ fuel ih =>
    intro k once h
    rw [headObjectLoop_eq resps (fuel + 1) k once] at h ⊢
    revert h
    cases hi : headIter resps k once with
    | stop out => exact headIter_stop_exist resps k once out hi
    | retry fail k' once' tr => exact ih k' once'

theorem head_err_not_exist (resps : Nat → HeadResp) (fuel k : Nat) (code : AwsCode)
    (h : (HeadObject resps fuel k).err = some code) :
    (HeadObject resps fuel k).isExist = false := by
  cases hex : (HeadObject resps fuel k).isExist
  · rfl
  · rw [HeadObject] at hex h
    rw [headObjectLoop_exist_err resps fuel k false hex] at h
    cases h

theorem verifyIter_stop_integrity (resps : Nat → HeadResp) (fetchOk refOk : Nat → Bool)
    (credType key : String) (hfuel k r : Nat) (out : VerifyOut)
    (h : verifyIter resps fetchOk refOk credType key hfuel k r = VerifyStep.stop out) :
    out.integrity = (out.isExist && strContains out.etag key) := by
  revert h
  unfold verifyIter
  rcases hho : HeadObject resps hfuel k with ⟨hisE, hEtag, hErr, hIdx, hTr⟩
  cases hErr with
  | none =>
    intro h
    cases h
    rfl
  | some code =>
    have hE : hisE = false := by
      have h2 := head_err_not_exist resps hfuel k code (by rw [hho])
      rw [hho] at h2
      exact h2
    subst hE
    intro h
    cases code <;> cases hC : credType == "DEFAULT" <;> cases hf : fetchOk r <;>
        cases hrf : refOk r <;>
      simp_all [AwsCode.isAccess] <;>
      simp [← h]

theorem verifyIter_retry_integrity (resps : Nat → HeadResp) (fetchOk refOk : Nat → Bool)
    (credType key : String) (hfuel k r : Nat) (fail : VerifyOut) (k' r' : Nat)
    (tr : List SAction)
    (h : verifyIter resps fetchOk refOk credType key hfuel k r
      = VerifyStep.retry fail k' r' tr) :
    fail.integrity = (fail.isExist && strContains fail.etag key) := by
  revert h
  unfold verifyIter
  rcases hho : HeadObject resps hfuel k with ⟨hisE, hEtag, hErr, hIdx, hTr⟩
  cases hErr with
  | none =>
    intro h
    cases h
  | some code =>
    have hE : hisE = false := by
      have h2 := head_err_not_exist resps hfuel k code (by rw [hho])
      rw [hho] at h2
      exact h2
    subst hE
    intro h
    cases code <;> cases hC : credType == "DEFAULT" <;> cases hf : fetchOk r <;>
        cases hrf : refOk r <;>
      simp_all [AwsCode.isAccess] <;>
      (rcases h with ⟨h1, -⟩; simp [← h1])

/-- The integrity flag `VerifyObject` reports is exactly
`isExist && strings.Contains(etag, key)`, whatever the oracle does. -/
theorem verifyLoop_integrity (resps : Nat → HeadResp) (fetchOk refOk : Nat → Bool)
    (credType key : String) (hfuel : Nat) :
    ∀ (fuel k r : Nat),
      (verifyLoop resps fetchOk refOk credType key hfuel fuel k r).integrity
        = ((verifyLoop resps fetchOk refOk credType key hfuel fuel k r).isExist
            && strContains (verifyLoop resps fetchOk refOk credType key hfuel fuel k r).etag
              key) := by
  intro fuel
  induction fuel with
  | zero =>
    intro k r
    rw [verifyLoop_eq resps fetchOk refOk credType key hfuel 0 k r]
    cases hi : verifyIter resps fetchOk refOk credType key hfuel k r with
    | stop out => exact verifyIter_stop_integrity resps fetchOk refOk credType key hfuel k r out hi
    | retry fail k' r' tr =>
      exact verifyIter_retry_integrity resps fetchOk refOk credType key hfuel k r fail k' r' tr hi
  | succ fuel ih =>
    intro k r
    rw [verifyLoop_eq resps fetchOk refOk credType key hfuel (fuel + 1) k r]
    cases hi : verifyIter resps fetchOk refOk credType key hfuel k r with
    | stop out => exact verifyIter_stop_integrity resps fetchOk refOk credType key hfuel k r out hi
    | retry fail k' r' tr => exact ih k' r'

/-! ## NotFound behaviour of head/verify (claim C7 and supporting lemmas) -/

theorem headObjectLoop_notFound (resps : Nat → HeadResp) (k : Nat)
    (h : resps k = HeadResp.failure AwsCode.notFound) :
    ∀ (fuel : Nat) (once : Bool),
      headObjectLoop resps fuel k once
        = ⟨false, "", some AwsCode.notFound, k + 1, [SAction.headRaw]⟩ := by
  intro fuel once
  rw [headObjectLoop_eq]
  simp [headIter, h]

theorem verifyLoop_notFound (resps : Nat → HeadResp) (fetchOk refOk : Nat → Bool)
    (credType key : String) (hfuel : Nat) (k : Nat)
    (h : resps k = HeadResp.failure AwsCode.notFound) :
    ∀ (vfuel r : Nat),
      verifyLoop resps fetchOk refOk credType key hfuel vfuel k r
        = ⟨false, false, "", none, k + 1, r, [SAction.headRaw]⟩ := by
  intro vfuel r
  have hh := headObjectLoop_notFound resps k h hfuel false
  rw [verifyLoop_eq]
  simp [verifyIter, HeadObject, hh]

/-- Whenever the first verify inside `PutObject` reports the object
present but corrupt, a put of the supplied bytes is issued. -/
theorem putOverwrites (headResps : Nat → HeadResp) (putResps : Nat → Option AwsCode)
    (fetchOk refOk : Nat → Bool) (credType key : String) (data : List Nat)
    (hfuel vfuel pfuel hk pk : Nat)
    (hex : (VerifyObject headResps fetchOk refOk credType key hfuel vfuel hk 0).isExist = true)
    (hint : (VerifyObject headResps fetchOk refOk credType key hfuel vfuel hk 0).integrity
      = false) :
    SAction.putRaw data ∈
      (PutObject headResps putResps fetchOk refOk credType key data hfuel vfuel pfuel
        hk pk).trace := by
  rw [PutObject, putLoop_eq]
  simp only [putIter, hex, hint, Bool.not_false, if_true]
  cases hp : putResps pk with
  | none => simp
  | some code =>
    unfold putClassify
    cases hacc : code.isAccess <;> simp only [hacc] <;> cases pfuel <;> simp

/-- C4: `VerifyObject` reports `integrity_ok = true` exactly when it
reports the object as existing and the returned ETag contains the key as a
substring; and whenever the verify step of `PutObject` reports the object
present but not integral, `PutObject` issues a put of the supplied
bytes. -/
theorem C4_verify_integrity_put :
    (∀ (resps : Nat → HeadResp) (fetchOk refOk : Nat → Bool) (credType key : String)
        (hfuel vfuel k r : Nat),
        (VerifyObject resps fetchOk refOk credType key hfuel vfuel k r).integrity = true
          ↔ ((VerifyObject resps fetchOk refOk credType key hfuel vfuel k r).isExist = true
              ∧ strContains (VerifyObject resps fetchOk refOk credType key hfuel vfuel k r).etag
                  key = true)) ∧
    (∀ (headResps : Nat → HeadResp) (putResps : Nat → Option AwsCode)
        (fetchOk refOk : Nat → Bool) (credType key : String) (data : List Nat)
        (hfuel vfuel pfuel hk pk : Nat),
        (VerifyObject headResps fetchOk refOk credType key hfuel vfuel hk 0).isExist = true →
        (VerifyObject headResps fetchOk refOk credType key hfuel vfuel hk 0).integrity = false →
        SAction.putRaw data ∈
          (PutObject headResps putResps fetchOk refOk credType key data hfuel vfuel pfuel
            hk pk).trace) := by
  constructor
  · intro resps fetchOk refOk credType key hfuel vfuel k r
    rw [VerifyObject, verifyLoop_integrity resps fetchOk refOk credType key hfuel vfuel k r,
      Bool.and_eq_true]
  · intro headResps putResps fetchOk refOk credType key data hfuel vfuel pfuel hk pk hex hint
    exact putOverwrites headResps putResps fetchOk refOk credType key data hfuel vfuel pfuel
      hk pk hex hint

/-- Witness for `C4_verify_integrity_put` at a concrete store whose ETag
does not contain the key: the object is reported corrupt and `PutObject`
issues the put. -/
theorem C4_verify_integrity_put_witness :
    ((VerifyObject (fun _ => HeadResp.found "zzz") (fun _ => true) (fun _ => true)
        "DEFAULT" "k" 3 3 0 0).isExist = true ∧
      (VerifyObject (fun _ => HeadResp.found "zzz") (fun _ => true) (fun _ => true)
        "DEFAULT" "k" 3 3 0 0).integrity = false) ∧
    SAction.putRaw [7] ∈
      (PutObject (fun _ => HeadResp.found "zzz") (fun _ => none) (fun _ => true)
        (fun _ => true) "DEFAULT" "k" [7] 3 3 3 0 0).trace :=
  ⟨⟨by decide, by decide⟩,
    C4_verify_integrity_put.2 (fun _ => HeadResp.found "zzz") (fun _ => none)
      (fun _ => true) (fun _ => true) "DEFAULT" "k" [7] 3 3 3 0 0 (by decide) (by decide)⟩

/-- C7 counterexample: with the store answering NotFound, `HeadObject`
returns `exists = false` together with the **non-nil** NotFound error
(`return false, "", err`), so the claim that both functions return a nil
error is false. -/
theorem C7_counterexample :
    (HeadObject (fun _ => HeadResp.failure AwsCode.notFound) 5 0).isExist = false ∧
      (HeadObject (fun _ => HeadResp.failure AwsCode.notFound) 5 0).err
        = some AwsCode.notFound := by
  exact ⟨by decide, by decide⟩

/-- C7 amended: when the store answers NotFound, `VerifyObject` treats it
as terminal success — `exists = false` with a nil error — while
`HeadObject` returns `exists = false` together with the NotFound error
(which `VerifyObject` is the one to convert into success). -/
theorem C7_notFound_terminal :
    ∀ (resps : Nat → HeadResp) (fetchOk refOk : Nat → Bool) (credType key : String)
      (hfuel vfuel k r : Nat),
      resps k = HeadResp.failure AwsCode.notFound →
      HeadObject resps hfuel k
          = ⟨false, "", some AwsCode.notFound, k + 1, [SAction.headRaw]⟩ ∧
        (VerifyObject resps fetchOk refOk credType key hfuel vfuel k r).isExist = false ∧
        (VerifyObject resps fetchOk refOk credType key hfuel vfuel k r).err = none := by
  intro resps fetchOk refOk credType key hfuel vfuel k r h
  refine ⟨headObjectLoop_notFound resps k h hfuel false, ?_, ?_⟩ <;>
    rw [VerifyObject, verifyLoop_notFound resps fetchOk refOk credType key hfuel k h vfuel r]

/-- Witness for `C7_notFound_terminal` at a concrete oracle. -/
theorem C7_notFound_terminal_witness :
    (fun _ : Nat => HeadResp.failure AwsCode.notFound) 0
        = HeadResp.failure AwsCode.notFound ∧
      (VerifyObject (fun _ => HeadResp.failure AwsCode.notFound) (fun _ => true)
        (fun _ => true) "DEFAULT" "k" 3 3 0 0).err = none :=
  ⟨rfl, (C7_notFound_terminal (fun _ => HeadResp.failure AwsCode.notFound) (fun _ => true)
    (fun _ => true) "DEFAULT" "k" 3 3 0 0 rfl).2.2⟩

/-! ## Permission-error behaviour of the four store operations (claim C5) -/

theorem isAccess_ne_notFound (code : AwsCode) (h : code.isAccess = true) :
    ¬(code = AwsCode.notFound) := by
  cases code <;> simp_all [AwsCode.isAccess]

theorem isAccess_ne_noSuchKey (code : AwsCode) (h : code.isAccess = true) :
    ¬(code = AwsCode.noSuchKey) := by
  cases code <;> simp_all [AwsCode.isAccess]

/-- `VerifyObject` with DEFAULT credentials: a permission error triggers a
credential fetch and a refresh before the retry. -/
theorem verify_refreshes (resps : Nat → HeadResp) (fetchOk refOk : Nat → Bool)
    (key : String) (hfuel k r fuel : Nat) (code : AwsCode)
    (herr : (HeadObject resps hfuel k).err = some code)
    (hacc : code.isAccess = true)
    (hf : fetchOk r = true) (hrf : refOk r = true) :
    VerifyObject resps fetchOk refOk "DEFAULT" key hfuel (fuel + 1) k r
      = (let h := HeadObject resps hfuel k
         let v := verifyLoop resps fetchOk refOk "DEFAULT" key hfuel fuel h.nextIdx (r + 1)
         ⟨v.isExist, v.integrity, v.etag, v.err, v.nextIdx, v.nextRef,
           h.trace ++ [SAction.getCred, SAction.refreshCred] ++ v.trace⟩) := by
  rw [VerifyObject, verifyLoop_eq]
  simp only [verifyIter, herr, hacc, hf, hrf, isAccess_ne_notFound code hacc, if_false,
    Bool.not_true, Bool.true_and, if_true]
  simp

/-- `HeadObject`: a permission error is retried exactly once after the
randomized sleep, then surfaced; no credential action appears. -/
theorem head_once (resps : Nat → HeadResp) (k fuel : Nat) (code : AwsCode)
    (hacc : code.isAccess = true)
    (h1 : resps k = HeadResp.failure code) (h2 : resps (k + 1) = HeadResp.failure code) :
    HeadObject resps (fuel + 1) k
      = ⟨false, "", some code, k + 2,
          [SAction.headRaw, SAction.sleepRand, SAction.headRaw]⟩ := by
  rw [HeadObject, headObjectLoop_eq]
  simp [headIter, h1, hacc, isAccess_ne_notFound code hacc]
  rw [headObjectLoop_eq]
  simp [headIter, h2, hacc, isAccess_ne_notFound code hacc]

/-- `GetObject`: a permission error is retried exactly once after the
randomized sleep, then surfaced; no credential action appears. -/
theorem get_once (resps : Nat → GetResp) (k fuel : Nat) (code : AwsCode)
    (hacc : code.isAccess = true)
    (h1 : resps k = GetResp.failure code) (h2 : resps (k + 1) = GetResp.failure code) :
    GetObject resps (fuel + 1) k
      = ⟨none, some code, k + 2, [SAction.getRaw, SAction.sleepRand, SAction.getRaw]⟩ := by
  rw [GetObject, getObjectLoop_eq]
  simp [getIter, h1, hacc, isAccess_ne_noSuchKey code hacc]
  rw [getObjectLoop_eq]
  simp [getIter, h2, hacc, isAccess_ne_noSuchKey code hacc]

/-- `PutObject` (store absent, non-manifest key, puts failing with a
permission error): the put is retried exactly once after the randomized
sleep, the error is surfaced, and no credential action appears — whatever
the credential type. -/
theorem put_once (headResps : Nat → HeadResp) (putResps : Nat → Option AwsCode)
    (fetchOk refOk : Nat → Bool) (credType key : String) (data : List Nat)
    (hfuel vfuel fuel hk pk : Nat) (code : AwsCode)
    (hacc : code.isAccess = true)
    (hH : ∀ i, headResps i = HeadResp.failure AwsCode.notFound)
    (hP : ∀ i, putResps i = some code)
    (hkey : isManifestKey key = false) :
    PutObject headResps putResps fetchOk refOk credType key data hfuel vfuel (fuel + 1) hk pk
      = ⟨some code, hk + 4, pk + 2, 0,
          [SAction.headRaw, SAction.putRaw data, SAction.headRaw, SAction.sleepRand,
           SAction.headRaw, SAction.putRaw data, SAction.headRaw]⟩ := by
  have hv : ∀ (k0 r0 : Nat),
      VerifyObject headResps fetchOk refOk credType key hfuel vfuel k0 r0
        = ⟨false, false, "", none, k0 + 1, r0, [SAction.headRaw]⟩ := by
    intro k0 r0
    rw [VerifyObject,
      verifyLoop_notFound headResps fetchOk refOk credType key hfuel k0 (hH k0) vfuel r0]
  rw [PutObject, putLoop_eq]
  simp only [putIter, hv, hP, hkey, putClassify, hacc, Bool.false_eq_true, if_false,
    Bool.if_false_left]
  simp only [if_true, Bool.true_and]
  rw [putLoop_eq]
  simp only [putIter, hv, hP, hkey, putClassify, hacc]
  simp

/-- C5 counterexample: `PutObject` under credential type `DEFAULT`, with
the store answering AccessDenied to every put, never fetches fresh
credentials and never refreshes — it follows the once-retry path and
surfaces the error — contradicting the claim that all four operations
refresh credentials when the type is DEFAULT. -/
theorem C5_counterexample :
    (PutObject (fun _ => HeadResp.failure AwsCode.notFound)
        (fun _ => some AwsCode.accessDenied) (fun _ => true) (fun _ => true)
        "DEFAULT" "k" [7] 5 5 5 0 0).err = some AwsCode.accessDenied ∧
      SAction.getCred ∉
        (PutObject (fun _ => HeadResp.failure AwsCode.notFound)
          (fun _ => some AwsCode.accessDenied) (fun _ => true) (fun _ => true)
          "DEFAULT" "k" [7] 5 5 5 0 0).trace ∧
      SAction.refreshCred ∉
        (PutObject (fun _ => HeadResp.failure AwsCode.notFound)
          (fun _ => some AwsCode.accessDenied) (fun _ => true) (fun _ => true)
          "DEFAULT" "k" [7] 5 5 5 0 0).trace := by
  refine ⟨by decide, by decide, by decide⟩

/-- C5 amended: only `VerifyObject` refreshes credentials — on
AccessDenied/Forbidden with credential type DEFAULT it fetches fresh
credentials and calls the refresh before retrying — while `HeadObject`,
`GetObject` and `PutObject`, for every credential type, retry at most once
after a randomized 0–3 s delay and then surface the error, with no
credential action. -/
theorem C5_access_retry_behaviour :
    (∀ (resps : Nat → HeadResp) (fetchOk refOk : Nat → Bool) (key : String)
        (hfuel k r fuel : Nat) (code : AwsCode),
        (HeadObject resps hfuel k).err = some code →
        code.isAccess = true → fetchOk r = true → refOk r = true →
        VerifyObject resps fetchOk refOk "DEFAULT" key hfuel (fuel + 1) k r
          = (let h := HeadObject resps hfuel k
             let v := verifyLoop resps fetchOk refOk "DEFAULT" key hfuel fuel
               h.nextIdx (r + 1)
             ⟨v.isExist, v.integrity, v.etag, v.err, v.nextIdx, v.nextRef,
               h.trace ++ [SAction.getCred, SAction.refreshCred] ++ v.trace⟩)) ∧
    (∀ (resps : Nat → HeadResp) (k fuel : Nat) (code : AwsCode),
        code.isAccess = true →
        resps k = HeadResp.failure code → resps (k + 1) = HeadResp.failure code →
        HeadObject resps (fuel + 1) k
          = ⟨false, "", some code, k + 2,
              [SAction.headRaw, SAction.sleepRand, SAction.headRaw]⟩) ∧
    (∀ (resps : Nat → GetResp) (k fuel : Nat) (code : AwsCode),
        code.isAccess = true →
        resps k = GetResp.failure code → resps (k + 1) = GetResp.failure code →
        GetObject resps (fuel + 1) k
          = ⟨none, some code, k + 2,
              [SAction.getRaw, SAction.sleepRand, SAction.getRaw]⟩) ∧
    (∀ (headResps : Nat → HeadResp) (putResps : Nat → Option AwsCode)
        (fetchOk refOk : Nat → Bool) (credType key : String) (data : List Nat)
        (hfuel vfuel fuel hk pk : Nat) (code : AwsCode),
        code.isAccess = true →
        (∀ i, headResps i = HeadResp.failure AwsCode.notFound) →
        (∀ i, putResps i = some code) →
        isManifestKey key = false →
        PutObject headResps putResps fetchOk refOk credType key data hfuel vfuel
            (fuel + 1) hk pk
          = ⟨some code, hk + 4, pk + 2, 0,
              [SAction.headRaw, SAction.putRaw data, SAction.headRaw, SAction.sleepRand,
               SAction.headRaw, SAction.putRaw data, SAction.headRaw]⟩) := by
  refine ⟨?_, ?_, ?_, ?_⟩
  · intro resps fetchOk refOk key hfuel k r fuel code herr hacc hf hrf
    exact verify_refreshes resps fetchOk refOk key hfuel k r fuel code herr hacc hf hrf
  · intro resps k fuel code hacc h1 h2
    exact head_once resps k fuel code hacc h1 h2
  · intro resps k fuel code hacc h1 h2
    exact get_once resps k fuel code hacc h1 h2
  · intro headResps putResps fetchOk refOk credType key data hfuel vfuel fuel hk pk code
      hacc hH hP hkey
    exact put_once headResps putResps fetchOk refOk credType key data hfuel vfuel fuel
      hk pk code hacc hH hP hkey

/-- Witness for `C5_access_retry_behaviour` on concrete oracles. -/
theorem C5_access_retry_witness :
    (AwsCode.accessDenied.isAccess = true ∧ isManifestKey "k" = false) ∧
      PutObject (fun _ => HeadResp.failure AwsCode.notFound)
          (fun _ => some AwsCode.accessDenied) (fun _ => true) (fun _ => true)
          "DEFAULT" "k" [7] 3 3 (2 + 1) 0 0
        = ⟨some AwsCode.accessDenied, 4, 2, 0,
            [SAction.headRaw, SAction.putRaw [7], SAction.headRaw, SAction.sleepRand,
             SAction.headRaw, SAction.putRaw [7], SAction.headRaw]⟩ :=
  ⟨⟨by decide, by decide⟩,
    C5_access_retry_behaviour.2.2.2 (fun _ => HeadResp.failure AwsCode.notFound)
      (fun _ => some AwsCode.accessDenied) (fun _ => true) (fun _ => true)
      "DEFAULT" "k" [7] 3 3 2 0 0 AwsCode.accessDenied (by decide) (fun _ => rfl)
      (fun _ => rfl) (by decide)⟩

/-! ## The differ decision (claim C2) and the restore decision (claim C3) -/

/-- C2: if the prior Node exists and the two mod times format equal (to
microsecond precision), `UploadFile` does not re-chunk: it copies the
prior `content` and `sha256_hash` into the new Node and re-emits one
manifest record `[1, length]` per prior ChunkRef; if the prior Node is
missing or the formatted times differ, it takes the `ChunkFileToBackup`
path (`chunked = true`). -/
theorem C2_differ_reuse :
    ∀ (md5 : List Nat → String) (sha256 : List Nat → List Nat) (bdID rpID : String)
      (file : List Nat) (attempts : Nat → Attempt) (last item : Node),
      (timeToString last.modTime = timeToString item.modTime →
        UploadFile md5 sha256 bdID rpID file attempts false (some last) item
          = ⟨{ item with content := last.content, sha256Hash := last.sha256Hash },
             last.content.map (fun c => ⟨bdID, rpID, [(c.etag, 1, c.length)]⟩), [], false,
             none⟩) ∧
      (timeToString last.modTime ≠ timeToString item.modTime →
        UploadFile md5 sha256 bdID rpID file attempts false (some last) item
          = uploadChunkPath md5 sha256 bdID rpID file attempts item) ∧
      (UploadFile md5 sha256 bdID rpID file attempts false none item
        = uploadChunkPath md5 sha256 bdID rpID file attempts item) ∧
      (uploadChunkPath md5 sha256 bdID rpID file attempts item).chunked = true := by
  intro md5 sha256 bdID rpID file attempts last item
  refine ⟨?_, ?_, rfl, rfl⟩
  · intro heq
    simp [UploadFile, eqFold_timeToString, heq]
  · intro hne
    simp [UploadFile, eqFold_timeToString, hne]

/-- Witness for `C2_differ_reuse`: equal formatted mod times reuse the
prior chunk list and re-emit its manifest record. -/
theorem C2_differ_reuse_witness :
    timeToString (⟨1, 1, 1, 0, 0, 0, 0⟩ : GoTime) = timeToString ⟨1, 1, 1, 0, 0, 0, 0⟩ ∧
      (UploadFile md5c sha256c "bd" "rp" [] (oneAttempt [])
          false (some { modTime := ⟨1, 1, 1, 0, 0, 0, 0⟩, content := [⟨0, 5, "K"⟩], sha256Hash := [9] })
          {}).records
        = [⟨"bd", "rp", [("K", 1, 5)]⟩] := by
  refine ⟨rfl, ?_⟩
  rw [(C2_differ_reuse md5c sha256c "bd" "rp" [] (oneAttempt [])
    { modTime := ⟨1, 1, 1, 0, 0, 0, 0⟩, content := [⟨0, 5, "K"⟩], sha256Hash := [9] } {}).1 rfl]
  rfl

def isGetA : RAction → Bool
  | .getA _ => true
  | _ => false

theorem downloadLoop_gets (store : String → Option (List Nat)) :
    ∀ (cs : List ChunkInfo) (buf : List Nat),
      (∀ c ∈ cs, (store c.etag).isSome = true) →
      ((downloadLoop false store cs buf).1.filter isGetA
          = cs.map (fun c => RAction.getA c.etag))
        ∧ ∃ out, (downloadLoop false store cs buf).2 = Except.ok out := by
  intro cs
  induction cs with
  | nil => exact fun buf _ => ⟨rfl, _, rfl⟩
  | cons c cs ih =>
    intro buf hs
    obtain ⟨data, hdata⟩ := Option.isSome_iff_exists.mp (hs c (List.mem_cons_self c cs))
    have hrest := ih (writeAt buf c.start data) (fun x hx => hs x (List.mem_cons_of_mem c hx))
    simp only [downloadLoop, if_neg (by simp : ¬(false = true)), hdata]
    refine ⟨?_, hrest.2⟩
    simp [List.filter, isGetA, hrest.1]

/-- C3: the four-way `restoreFile` decision: absent → create + download;
ctime equal → skip (no actions); ctime differs, mtime equal → update
mode/uid/gid/atime/mtime only; ctime and mtime both differ → remove,
recreate, download.  And with every chunk present in the store, the
download fetches exactly the Node's ChunkRefs in order. -/
theorem C3_restore_file_decision :
    ∀ (store : String → Option (List Nat)) (item : Node) (d : DiskStat),
      (restoreFile false store none item
        = (createFile item.mode item.uid item.gid ++ (downloadFile false store item []).1,
           (downloadFile false store item []).2)) ∧
      (timeToString d.ctime = timeToString item.changeTime →
        restoreFile false store (some d) item = ([], Except.ok (d.bytes, d.meta))) ∧
      (timeToString d.ctime ≠ timeToString item.changeTime →
        timeToString d.mtime = timeToString item.modTime →
        restoreFile false store (some d) item
          = ([RAction.chmodA item.mode, RAction.chownA item.uid item.gid,
              RAction.chtimesA item.accessTime item.modTime],
             Except.ok (d.bytes,
               ⟨item.mode, item.uid, item.gid, item.accessTime, item.modTime⟩))) ∧
      (timeToString d.ctime ≠ timeToString item.changeTime →
        timeToString d.mtime ≠ timeToString item.modTime →
        restoreFile false store (some d) item
          = (RAction.removeA :: createFile item.mode item.uid item.gid
               ++ (downloadFile false store item []).1,
             (downloadFile false store item []).2)) ∧
      ((∀ c ∈ item.content, (store c.etag).isSome = true) →
        (downloadFile false store item []).1.filter isGetA
          = item.content.map (fun c => RAction.getA c.etag)) := by
  intro store item d
  refine ⟨rfl, ?_, ?_, ?_, ?_⟩
  · intro heq
    simp [restoreFile, eqFold_timeToString, heq]
  · intro hne heq
    simp [restoreFile, eqFold_timeToString, hne, heq]
  · intro hne hne2
    simp [restoreFile, eqFold_timeToString, hne, hne2]
  · intro hs
    have hget := downloadLoop_gets store item.content [] hs
    obtain ⟨out, hok⟩ := hget.2
    simp [downloadFile, hok, List.filter_append, hget.1, isGetA]

/-- Witness for `C3_restore_file_decision`: an on-disk file with matching
formatted ctime is skipped, and the download trace of an empty content
list is empty. -/
theorem C3_restore_file_decision_witness :
    timeToString (⟨1, 1, 1, 0, 0, 0, 0⟩ : GoTime) = timeToString ⟨1, 1, 1, 0, 0, 0, 0⟩ ∧
      restoreFile false (fun _ => none)
          (some { ctime := ⟨1, 1, 1, 0, 0, 0, 0⟩, mtime := ⟨1, 1, 1, 0, 0, 0, 0⟩ }) {}
        = ([], Except.ok ([], ⟨0, 0, 0, ⟨1, 1, 1, 0, 0, 0, 0⟩, ⟨1, 1, 1, 0, 0, 0, 0⟩⟩)) := by
  refine ⟨rfl, ?_⟩
  rw [(C3_restore_file_decision (fun _ => none) {}
    { ctime := ⟨1, 1, 1, 0, 0, 0, 0⟩, mtime := ⟨1, 1, 1, 0, 0, 0, 0⟩ }).2.1 rfl]


/-! ## Backup followed by restore into an empty directory (claim C1) -/

theorem chunkPass_datas (md5 : List Nat → String) (bdID rpID : String) (file : List Nat) :
    ∀ (sizes : List Nat) (off : Nat),
      (chunkPass md5 bdID rpID file off sizes).datas = segsOf file off sizes := by
  intro sizes
  induction sizes with
  | nil => intro off; rfl
  | cons n ns ih =>
    intro off
    simp [chunkPass, segsOf, ih (off + n)]

theorem chunkPass_puts (md5 : List Nat → String) (bdID rpID : String) (file : List Nat) :
    ∀ (sizes : List Nat) (off : Nat),
      (chunkPass md5 bdID rpID file off sizes).puts
        = (segsOf file off sizes).map (fun s => (md5 s, s)) := by
  intro sizes
  induction sizes with
  | nil => intro off; rfl
  | cons n ns ih =>
    intro off
    simp [chunkPass, segsOf, ih (off + n)]

/-- A positional write at the end of the buffer appends. -/
theorem writeAt_append (buf data : List Nat) :
    writeAt buf buf.length data = buf ++ data := by
  simp [writeAt, List.drop_eq_nil_of_le]

theorem seg_length (file : List Nat) (off n : Nat) (h : off + n ≤ file.length) :
    ((file.drop off).take n).length = n := by
  simp [List.length_take, List.length_drop]
  omega

/-- The chunk payloads of a full pass concatenate back to the file span. -/
theorem segsOf_flatten (file : List Nat) :
    ∀ (sizes : List Nat) (off : Nat),
      off + sizes.sum ≤ file.length →
      (segsOf file off sizes).flatten = (file.drop off).take sizes.sum := by
  intro sizes
  induction sizes with
  | nil => intro off _; simp [segsOf]
  | cons n ns ih =>
    intro off h
    simp only [segsOf, List.flatten_cons, List.sum_cons]
    rw [ih (off + n) (by simp only [List.sum_cons] at h; omega)]
    rw [List.take_add, List.drop_drop]

/-- Downloading the chunks recorded by one pass writes the file span back,
chunk by chunk at its recorded offset. -/
theorem downloadLoop_tiles (md5 : List Nat → String) (bdID rpID : String) (file : List Nat)
    (store : String → Option (List Nat)) :
    ∀ (sizes : List Nat) (off : Nat) (buf : List Nat),
      buf.length = off →
      off + sizes.sum ≤ file.length →
      (∀ seg ∈ segsOf file off sizes, store (md5 seg) = some seg) →
      (downloadLoop false store (chunkPass md5 bdID rpID file off sizes).content buf).2
        = Except.ok (buf ++ (segsOf file off sizes).flatten) := by
  intro sizes
  induction sizes with
  | nil =>
    intro off buf _ _ _
    simp [chunkPass, downloadLoop, segsOf]
  | cons n ns ih =>
    intro off buf hbuf hsum hstore
    subst hbuf
    have hdata : store (md5 ((file.drop buf.length).take n))
        = some ((file.drop buf.length).take n) :=
      hstore _ (by simp [segsOf])
    have hlen : ((file.drop buf.length).take n).length = n :=
      seg_length file buf.length n (by simp only [List.sum_cons] at hsum; omega)
    simp only [chunkPass, segsOf, List.flatten_cons, downloadLoop, hdata,
      if_neg (by simp : ¬(false = true))]
    rw [writeAt_append]
    rw [ih (buf.length + n) (buf ++ (file.drop buf.length).take n)
      (by simp [hlen]) (by simp only [List.sum_cons] at hsum; omega)
      (fun seg hseg => hstore seg (by simp [segsOf, hseg]))]
    simp

/-- First-match lookup is exact when the digest is collision-free on the
stored payloads. -/
theorem storeGet_all (md5 : List Nat → String) (A : List (List Nat))
    (hinj : ∀ s1 ∈ A, ∀ s2 ∈ A, md5 s1 = md5 s2 → s1 = s2) :
    ∀ (st : List (String × List Nat)),
      (∀ p ∈ st, ∃ s ∈ A, p = (md5 s, s)) →
      ∀ seg ∈ A, (md5 seg, seg) ∈ st →
      storeGet st (md5 seg) = some seg := by
  intro st
  induction st with
  | nil =>
    intro _ seg _ hmem
    cases hmem
  | cons p st ih =>
    intro hall seg hsegA hmem
    obtain ⟨s, hsA, hps⟩ := hall p (List.mem_cons_self p st)
    rw [storeGet, List.find?_cons]
    cases hb : p.1 == md5 seg with
    | true =>
      have h1 : p.1 = md5 seg := eq_of_beq hb
      have h2 : s = seg := by
        apply hinj s hsA seg hsegA
        rw [← h1, hps]
      simp only [Option.map_some]
      rw [hps]
      simp [h2]
    | false =>
      have hmem2 : (md5 seg, seg) ∈ st := by
        rcases List.mem_cons.mp hmem with h | h
        · exfalso
          rw [← h] at hb
          simp at hb
        · exact h
      exact ih (fun q hq => hall q (List.mem_cons_of_mem p hq)) seg hsegA hmem2

theorem zip_map_self {α β : Type} (f : α → β) :
    ∀ l : List α, l.zip (l.map f) = l.map (fun a => (a, f a))
  | [] => rfl
  | a :: l => by simp [zip_map_self f l]

/-- `backupOne` in closed form: the walker Node with the pass's content
and the file hash, plus the pass's object puts. -/
theorem backupOne_eq (md5 : List Nat → String) (sha256 : List Nat → List Nat)
    (inp : BackupInput) :
    backupOne md5 sha256 inp
      = ({ mode := inp.mode, uid := inp.uid, gid := inp.gid,
           accessTime := inp.atime, modTime := inp.mtime, changeTime := inp.ctime,
           content := (chunkPass md5 "bd" "rp" inp.data 0 inp.partition).content,
           sha256Hash :=
             sha256 (chunkPass md5 "bd" "rp" inp.data 0 inp.partition).datas.flatten },
         (chunkPass md5 "bd" "rp" inp.data 0 inp.partition).puts) := by
  simp [backupOne, ChunkFileToBackup, MaxTimesRetryChunk, chunkLoop_eq, oneAttempt]

/-- C1: back up a tree (every file chunked by a content-defined partition
that tiles it, every chunk uploaded under its digest etag, ChunkRefs
recorded in the Node), then restore each Node from the resulting store
into an empty destination: every restored file is byte-equal to its
source, and its mode, uid, gid and mtime are the recorded Node
attributes.  The digest is assumed collision-free on the stored chunk
payloads (as MD5 is, overwhelmingly, in practice). -/
theorem C1_backup_restore_roundtrip :
    ∀ (md5 : List Nat → String) (sha256 : List Nat → List Nat) (inps : List BackupInput),
      (∀ inp ∈ inps, inp.partition.sum = inp.data.length) →
      (∀ s1 ∈ allSegs inps, ∀ s2 ∈ allSegs inps, md5 s1 = md5 s2 → s1 = s2) →
      ∀ pr ∈ inps.zip (backupTree md5 sha256 inps).1,
        (restoreFile false (storeGet (backupTree md5 sha256 inps).2) none pr.2).2
          = Except.ok (pr.1.data,
              ⟨pr.1.mode, pr.1.uid, pr.1.gid, pr.1.atime, pr.1.mtime⟩) := by
  intro md5 sha256 inps hpart hinj pr hpr
  have hzip : inps.zip (backupTree md5 sha256 inps).1
      = inps.map (fun inp => (inp, (backupOne md5 sha256 inp).1)) := by
    show inps.zip ((inps.map (backupOne md5 sha256)).map Prod.fst) = _
    rw [List.map_map, zip_map_self]
    rfl
  rw [hzip] at hpr
  obtain ⟨inp, hinp, hpr_eq⟩ := List.mem_map.mp hpr
  subst hpr_eq
  have hstore_all : ∀ p ∈ (backupTree md5 sha256 inps).2,
      ∃ s ∈ allSegs inps, p = (md5 s, s) := by
    intro p hp
    have hp2 : p ∈ ((inps.map (backupOne md5 sha256)).map Prod.snd).flatten := hp
    rw [List.map_map] at hp2
    obtain ⟨l, hl, hpl⟩ := List.mem_flatten.mp hp2
    obtain ⟨inp2, hinp2, hleq⟩ := List.mem_map.mp hl
    have hlval : l = (chunkPass md5 "bd" "rp" inp2.data 0 inp2.partition).puts := by
      rw [← hleq]
      show (backupOne md5 sha256 inp2).2 = _
      rw [backupOne_eq]
    rw [hlval, chunkPass_puts] at hpl
    obtain ⟨s, hs, hps⟩ := List.mem_map.mp hpl
    refine ⟨s, ?_, hps.symm⟩
    exact List.mem_flatten.mpr ⟨_, List.mem_map_of_mem _ hinp2, hs⟩
  have hseg_all : ∀ seg ∈ segsOf inp.data 0 inp.partition, seg ∈ allSegs inps := by
    intro seg hseg
    exact List.mem_flatten.mpr ⟨_, List.mem_map_of_mem _ hinp, hseg⟩
  have hmem_store : ∀ seg ∈ segsOf inp.data 0 inp.partition,
      (md5 seg, seg) ∈ (backupTree md5 sha256 inps).2 := by
    intro seg hseg
    show (md5 seg, seg) ∈ ((inps.map (backupOne md5 sha256)).map Prod.snd).flatten
    rw [List.map_map]
    refine List.mem_flatten.mpr
      ⟨(chunkPass md5 "bd" "rp" inp.data 0 inp.partition).puts, ?_, ?_⟩
    · refine List.mem_map.mpr ⟨inp, hinp, ?_⟩
      show (backupOne md5 sha256 inp).2 = _
      rw [backupOne_eq]
    · rw [chunkPass_puts]
      exact List.mem_map_of_mem _ hseg
  have hget : ∀ seg ∈ segsOf inp.data 0 inp.partition,
      storeGet (backupTree md5 sha256 inps).2 (md5 seg) = some seg := by
    intro seg hseg
    exact storeGet_all md5 (allSegs inps) hinj _ hstore_all seg (hseg_all seg hseg)
      (hmem_store seg hseg)
  have hsum : inp.partition.sum = inp.data.length := hpart inp hinp
  have hdl : (downloadLoop false (storeGet (backupTree md5 sha256 inps).2)
        (chunkPass md5 "bd" "rp" inp.data 0 inp.partition).content []).2
      = Except.ok inp.data := by
    rw [downloadLoop_tiles md5 "bd" "rp" inp.data (storeGet (backupTree md5 sha256 inps).2)
      inp.partition 0 [] rfl (by omega) (fun seg hseg => hget seg hseg)]
    rw [segsOf_flatten inp.data inp.partition 0 (by omega)]
    simp [hsum]
  show (restoreFile false (storeGet (backupTree md5 sha256 inps).2) none
      (backupOne md5 sha256 inp).1).2 = _
  rw [backupOne_eq]
  show (downloadFile false (storeGet (backupTree md5 sha256 inps).2) _ []).2 = _
  simp only [downloadFile, hdl]

/-- The first source file of the concrete two-file tree backed up in
`C1_backup_restore_roundtrip_witness`. -/
def C1inp0 : BackupInput :=
  { data := [1, 2, 3], partition := [2, 1] }

/-- A concrete two-file source tree whose chunk payloads have pairwise
distinct `md5c` digests. -/
def C1inps : List BackupInput :=
  [C1inp0, { data := [1, 2], partition := [2] }]

/-- Witness for `C1_backup_restore_roundtrip`: restoring the first file of
the concrete tree reproduces its bytes and metadata. -/
theorem C1_backup_restore_roundtrip_witness :
    ((∀ inp ∈ C1inps, inp.partition.sum = inp.data.length) ∧
      (∀ s1 ∈ allSegs C1inps, ∀ s2 ∈ allSegs C1inps, md5c s1 = md5c s2 → s1 = s2)) ∧
      (restoreFile false (storeGet (backupTree md5c sha256c C1inps).2) none
          (C1inp0, (backupOne md5c sha256c C1inp0).1).2).2
        = Except.ok ((C1inp0, (backupOne md5c sha256c C1inp0).1).1.data,
            ⟨C1inp0.mode, C1inp0.uid, C1inp0.gid, C1inp0.atime, C1inp0.mtime⟩) :=
  ⟨⟨by decide, by decide⟩,
    C1_backup_restore_roundtrip md5c sha256c C1inps (by decide) (by decide)
      (C1inp0, (backupOne md5c sha256c C1inp0).1) (by decide)⟩

end Bizfly
